import Mathlib

/-!
Shallow embedding of the `wait-free-arena` crate (src/allocator.rs, src/boxed.rs,
src/buffer.rs, src/lib.rs) and proofs of the specification claims.

The arena (`ArenaAllocator<B>`) owns a byte buffer with a base address and a
length, plus an atomic cursor `next_free`.  We model the sequential semantics:
each `compare_exchange` succeeds on its first attempt (no interleaving), so the
retry loop of `bump_alloc` runs exactly one iteration.  `usize` arithmetic is
modelled as `Nat` with explicit wrap-around modulo `2 ^ 64` (`wadd`, `wsub`);
pointers are modelled as natural-number addresses (`base + offset`), with the
`NonNull` nullability check kept as an explicit test against 0.
-/

namespace WaitFreeArena

/-- The modulus of `usize` on a 64-bit target. -/
def USIZE : Nat := 2 ^ 64

/-- Wrapping `usize` addition. -/
def wadd (a b : Nat) : Nat := (a + b) % USIZE

/-- Wrapping `usize` subtraction (for `a b < USIZE`). -/
def wsub (a b : Nat) : Nat := (a + USIZE - b) % USIZE

/-- `AllocErrorKind` from src/lib.rs. -/
inductive AllocErrorKind
  | OOM
  | InvalidPtr
  | Other
deriving DecidableEq, Repr

/-- `AllocError` from src/lib.rs: a kind plus an optional static message. -/
structure AllocError where
  kind : AllocErrorKind
  msg : Option String
deriving DecidableEq, Repr

/-- `AllocError::new` -/
def AllocError.new (kind : AllocErrorKind) : AllocError := ⟨kind, none⟩

/-- `AllocError::with_message` -/
def AllocError.with_message (kind : AllocErrorKind) (msg : String) : AllocError :=
  ⟨kind, some msg⟩

/-- `AllocRes<T> = Result<T, AllocError>` -/
abbrev AllocRes (α : Type) := Except AllocError α

instance {ε α : Type} [DecidableEq ε] [DecidableEq α] : DecidableEq (Except ε α) := fun
  | .error e1, .error e2 =>
    if h : e1 = e2 then .isTrue (by rw [h]) else .isFalse (by simp [h])
  | .error _, .ok _ => .isFalse (by simp)
  | .ok _, .error _ => .isFalse (by simp)
  | .ok v1, .ok v2 =>
    if h : v1 = v2 then .isTrue (by rw [h]) else .isFalse (by simp [h])

/-- `core::alloc::Layout`: a size and an alignment. -/
structure Layout where
  size : Nat
  align : Nat
deriving DecidableEq, Repr

/-- A `NonNull<[u8]>` fat pointer: address of the first byte plus length. -/
structure MemDesc where
  addr : Nat
  size : Nat
deriving DecidableEq, Repr

/-- The state of an `ArenaAllocator<B>`: the buffer's base address
(`buf.as_ptr()`), its length (`buf.len()`), and the cursor (`next_free`).
The buffer's base and length are immutable after construction. -/
structure Arena where
  base : Nat
  length : Nat
  next_free : Nat
deriving DecidableEq, Repr

/-- `ArenaAllocator::new_in`: fresh arena over a buffer, cursor 0. -/
def Arena.new_in (base length : Nat) : Arena := ⟨base, length, 0⟩

/-- `ArenaAllocator::bump_alloc` (src/allocator.rs lines 41-66), sequential
semantics: load the cursor; if `layout.size() > buf.len() - cur` fail with
`OOM`; otherwise the compare-and-swap to `cur + layout.size()` succeeds,
the pointer `buf.as_mut_ptr().add(cur)` is formed and checked non-null.
The post-state is returned alongside the result (the cursor has already
advanced when the `NonNull` check runs). -/
def Arena.bump_alloc (a : Arena) (layout : Layout) : Arena × AllocRes MemDesc :=
  let cur := a.next_free
  if wsub a.length cur < layout.size then
    (a, .error (AllocError.with_message .OOM "Not enough memory in buffer"))
  else
    let a' : Arena := { a with next_free := wadd cur layout.size }
    let buffer := a.base + cur
    if buffer = 0 then
      (a', .error (AllocError.new .InvalidPtr))
    else
      (a', .ok ⟨buffer, layout.size⟩)

/-- `ArenaAllocator::dealloc` (src/allocator.rs lines 68-82), sequential
semantics: load the cursor; if `layout.size() > cur` return unchanged;
otherwise compute `last = cur - layout.size()` and the address
`buf.as_ptr().add(last)`; only if that address equals `data` attempt the
single compare-and-swap back to `last` (which succeeds sequentially). -/
def Arena.dealloc (a : Arena) (data : Nat) (layout : Layout) : Arena :=
  let cur := a.next_free
  if cur < layout.size then a
  else
    let last := wsub cur layout.size
    let cur_ptr := a.base + last
    if cur_ptr = data then { a with next_free := last } else a

/-- Byte memory: contents of each address. -/
def Mem : Type := Nat → Nat

/-- `ptr::write_bytes(val, count)` starting at `addr`. -/
def write_bytes (m : Mem) (addr val count : Nat) : Mem :=
  fun i => if addr ≤ i ∧ i < addr + count then val else m i

/-- `ArenaAllocatorImpl::bump_alloc_zeroed` (src/allocator.rs lines 15-24):
`bump_alloc`, then `thin.write_bytes(0, layout.size())`, then return the
same descriptor. -/
def Arena.bump_alloc_zeroed (a : Arena) (m : Mem) (layout : Layout) :
    (Arena × Mem) × AllocRes MemDesc :=
  match a.bump_alloc layout with
  | (a', .error e) => ((a', m), .error e)
  | (a', .ok d) => ((a', write_bytes m d.addr 0 layout.size), .ok d)

/-- Write `count` bytes taken from `bytes` (indexed from the start of the
value's representation) at `addr`: models `ptr::write(thin, value)`. -/
def write_val (m : Mem) (addr count : Nat) (bytes : Nat → Nat) : Mem :=
  fun i => if addr ≤ i ∧ i < addr + count then bytes (i - addr) else m i

/-- `ArenaAllocatorImpl::alloc_val` (src/allocator.rs lines 26-32):
`bump_alloc(Layout::new::<T>())`, write the value's bytes into the range,
return the address of the exclusive reference.  `layoutT` is
`Layout::new::<T>()` and `bytes` the value's byte representation. -/
def Arena.alloc_val (a : Arena) (m : Mem) (layoutT : Layout) (bytes : Nat → Nat) :
    (Arena × Mem) × AllocRes Nat :=
  match a.bump_alloc layoutT with
  | (a', .error e) => ((a', m), .error e)
  | (a', .ok d) => ((a', write_val m d.addr layoutT.size bytes), .ok d.addr)

/-- Two descriptors do not overlap: one ends no later than the other begins. -/
def MemDesc.disjoint (d1 d2 : MemDesc) : Prop :=
  d1.addr + d1.size ≤ d2.addr ∨ d2.addr + d2.size ≤ d1.addr

instance : DecidablePred fun p : MemDesc × MemDesc => MemDesc.disjoint p.1 p.2 :=
  fun _ => by unfold MemDesc.disjoint; infer_instance

/-- Run a sequence of `bump_alloc` calls with the given sizes (alignment 1),
collecting the returned descriptors; `none` if any call fails. -/
def allocAll (a : Arena) : List Nat → Option (Arena × List MemDesc)
  | [] => some (a, [])
  | s :: rest =>
    match a.bump_alloc ⟨s, 1⟩ with
    | (_, .error _) => none
    | (a', .ok d) =>
      match allocAll a' rest with
      | none => none
      | some (af, ds) => some (af, d :: ds)

/-! ### Arithmetic helper lemmas -/

theorem wsub_eq_of_le {a b : Nat} (h : b ≤ a) (ha : a < USIZE) : wsub a b = a - b := by
  unfold wsub
  have h1 : a + USIZE - b = (a - b) + USIZE := by omega
  rw [h1, Nat.add_mod_right, Nat.mod_eq_of_lt (by omega)]

theorem wadd_eq_of_lt {a b : Nat} (h : a + b < USIZE) : wadd a b = a + b :=
  Nat.mod_eq_of_lt h

/-! ### Characterization of the sequential `bump_alloc` -/

/-- Under the cursor invariant, a `usize` length and a non-null buffer base,
`bump_alloc` either fails with exactly the `OOM` error leaving the state
unchanged (when the size exceeds the remaining capacity) or succeeds,
returning the range at the old cursor and advancing the cursor by the size. -/
theorem bump_alloc_spec (a : Arena) (l : Layout)
    (h1 : a.next_free ≤ a.length) (h2 : a.length < USIZE) (h3 : 0 < a.base) :
    if a.length - a.next_free < l.size then
      a.bump_alloc l =
        (a, .error (AllocError.with_message .OOM "Not enough memory in buffer"))
    else
      a.bump_alloc l =
        ({ a with next_free := a.next_free + l.size },
          .ok ⟨a.base + a.next_free, l.size⟩) := by
  have hw : wsub a.length a.next_free = a.length - a.next_free := wsub_eq_of_le h1 h2
  by_cases hoom : a.length - a.next_free < l.size
  · simp [Arena.bump_alloc, hw, hoom]
  · have hnz : ¬ (a.base + a.next_free = 0) := by omega
    have hwa : wadd a.next_free l.size = a.next_free + l.size :=
      wadd_eq_of_lt (by omega)
    simp [Arena.bump_alloc, hw, hoom, hnz, hwa]

/-! ### Claim C2 -/

/-- C2: `bump_alloc` fails, and fails with kind `OOM`, exactly when the
requested layout size exceeds `length - cursor` (the remaining capacity) at
the moment the cursor is read; a failed call leaves the cursor, and hence the
remaining capacity, unchanged.  Hypotheses: the cursor invariant, a `usize`
length, and a non-null buffer base (all guaranteed by the source). -/
theorem bump_alloc_fails_iff_oom (a : Arena) (l : Layout)
    (h1 : a.next_free ≤ a.length) (h2 : a.length < USIZE) (h3 : 0 < a.base) :
    ((∃ e, (a.bump_alloc l).2 = .error e) ↔ a.length - a.next_free < l.size) ∧
    (∀ e, (a.bump_alloc l).2 = .error e →
      e.kind = .OOM ∧ (a.bump_alloc l).1 = a) := by
  have hs := bump_alloc_spec a l h1 h2 h3
  by_cases hoom : a.length - a.next_free < l.size
  · rw [if_pos hoom] at hs
    rw [hs]
    refine ⟨⟨fun _ => hoom, fun _ => ⟨_, rfl⟩⟩, ?_⟩
    intro e he
    simp only [Except.error.injEq] at he
    rw [← he]
    exact ⟨rfl, rfl⟩
  · rw [if_neg hoom] at hs
    rw [hs]
    simp [hoom]

theorem bump_alloc_fails_iff_oom_witness :
    ((∃ e, ((Arena.mk 1 4 3).bump_alloc ⟨2, 1⟩).2 = .error e) ↔ 4 - 3 < 2) ∧
    (∀ e, ((Arena.mk 1 4 3).bump_alloc ⟨2, 1⟩).2 = .error e →
      e.kind = .OOM ∧ ((Arena.mk 1 4 3).bump_alloc ⟨2, 1⟩).1 = Arena.mk 1 4 3) :=
  bump_alloc_fails_iff_oom ⟨1, 4, 3⟩ ⟨2, 1⟩ (by decide) (by decide) (by decide)

/-! ### Claim C10 -/

/-- C10: a `bump_alloc` request of size 0 always succeeds, even when the
cursor already equals the length (the arena is full), and leaves the cursor
unchanged; the returned descriptor has length 0 and points at the current
cursor position. -/
theorem bump_alloc_zero_size (a : Arena) (al : Nat)
    (h1 : a.next_free ≤ a.length) (h2 : a.length < USIZE) (h3 : 0 < a.base) :
    a.bump_alloc ⟨0, al⟩ = (a, .ok ⟨a.base + a.next_free, 0⟩) := by
  have hs := bump_alloc_spec a ⟨0, al⟩ h1 h2 h3
  rw [if_neg (by simp)] at hs
  rw [hs]
  obtain ⟨b, n, c⟩ := a
  simp

theorem bump_alloc_zero_size_witness :
    (Arena.mk 1 4 4).bump_alloc ⟨0, 1⟩ = (Arena.mk 1 4 4, .ok ⟨5, 0⟩) :=
  bump_alloc_zero_size ⟨1, 4, 4⟩ 1 (by decide) (by decide) (by decide)

/-! ### Claim C6 -/

/-- C6: `bump_alloc` performs no alignment rounding: for every layout, the
offset of the returned range equals the cursor value that was loaded
(`addr = base + cursor`), and the cursor is advanced by exactly the layout's
size, regardless of the layout's alignment — the result is identical for any
alignment with the same size, so an alignment greater than 1 can receive a
misaligned offset depending on prior allocation sizes. -/
theorem bump_alloc_no_align (a : Arena) (l : Layout) (a1 : Arena) (d : MemDesc)
    (h1 : a.next_free ≤ a.length) (h2 : a.length < USIZE) (h3 : 0 < a.base)
    (h : a.bump_alloc l = (a1, .ok d)) :
    d.addr = a.base + a.next_free ∧ d.size = l.size ∧
    a1.next_free = a.next_free + l.size ∧
    ∀ al2, a.bump_alloc ⟨l.size, al2⟩ = a.bump_alloc l := by
  have halign : ∀ al2, a.bump_alloc ⟨l.size, al2⟩ = a.bump_alloc l := by
    obtain ⟨s, al⟩ := l
    intro al2
    rfl
  have hs := bump_alloc_spec a l h1 h2 h3
  by_cases hoom : a.length - a.next_free < l.size
  · rw [if_pos hoom] at hs
    rw [hs] at h
    simp at h
  · rw [if_neg hoom] at hs
    rw [hs] at h
    injection h with hA hD
    injection hD with hD
    rw [← hA, ← hD]
    exact ⟨rfl, rfl, rfl, halign⟩

theorem bump_alloc_no_align_witness :
    (MemDesc.mk 3 4).addr = (Arena.mk 2 10 1).base + (Arena.mk 2 10 1).next_free ∧
    (Arena.mk 2 10 1).bump_alloc ⟨4, 8⟩ = (Arena.mk 2 10 1).bump_alloc ⟨4, 2⟩ ∧
    (3 : Nat) % 2 = 1 :=
  have h := bump_alloc_no_align ⟨2, 10, 1⟩ ⟨4, 2⟩ ⟨2, 10, 5⟩ ⟨3, 4⟩
    (by decide) (by decide) (by decide) (by decide)
  ⟨h.1, h.2.2.2 8, by decide⟩

/-! ### Claim C4 -/

/-- C4: `dealloc` never reports an error (its return type carries no error
channel), and it changes no state unless the freed range is exactly the
most-recently-issued tail: for every cursor value, if the passed size exceeds
the cursor, or the address computed at offset `cursor - size` differs from
the passed pointer, the call returns with the cursor (indeed the whole
arena state) unchanged. -/
theorem dealloc_noop (a : Arena) (data : Nat) (l : Layout)
    (h1 : a.next_free ≤ a.length) (h2 : a.length < USIZE)
    (hmiss : a.next_free < l.size ∨ a.base + (a.next_free - l.size) ≠ data) :
    a.dealloc data l = a := by
  by_cases hc : a.next_free < l.size
  · simp [Arena.dealloc, hc]
  · have hw : wsub a.next_free l.size = a.next_free - l.size :=
      wsub_eq_of_le (by omega) (by omega)
    have hne : a.base + (a.next_free - l.size) ≠ data := hmiss.resolve_left hc
    simp [Arena.dealloc, hc, hw, hne]

theorem dealloc_noop_witness :
    (Arena.mk 1 10 5).dealloc 99 ⟨2, 1⟩ = Arena.mk 1 10 5 :=
  dealloc_noop ⟨1, 10, 5⟩ 99 ⟨2, 1⟩ (by decide) (by decide) (by decide)

/-! ### Claim C3 -/

/-- C3: if a `bump_alloc` of size `s` returns the range that is currently the
tail (the most-recently-issued range — which every successful `bump_alloc`
result is), then a `dealloc` with that range's pointer and size `s` lowers
the cursor by exactly `s` (restoring the pre-allocation state), after which a
`bump_alloc` of size `s` succeeds again and returns that same range. -/
theorem dealloc_tail_restores (a : Arena) (l : Layout) (a1 : Arena) (d : MemDesc)
    (h1 : a.next_free ≤ a.length) (h2 : a.length < USIZE) (h3 : 0 < a.base)
    (h : a.bump_alloc l = (a1, .ok d)) :
    (a1.dealloc d.addr l).next_free = a1.next_free - l.size ∧
    a1.dealloc d.addr l = a ∧
    (a1.dealloc d.addr l).bump_alloc l = (a1, .ok d) := by
  have hs := bump_alloc_spec a l h1 h2 h3
  by_cases hoom : a.length - a.next_free < l.size
  · rw [if_pos hoom] at hs
    rw [hs] at h
    simp at h
  · rw [if_neg hoom] at hs
    rw [hs] at h
    injection h with hA hD
    injection hD with hD
    subst hA
    subst hD
    have hg : ¬ (a.next_free + l.size < l.size) := by omega
    have hw : wsub (a.next_free + l.size) l.size = a.next_free := by
      rw [wsub_eq_of_le (by omega) (by omega)]
      omega
    have heq : Arena.dealloc { a with next_free := a.next_free + l.size }
        (a.base + a.next_free) l = a := by
      simp [Arena.dealloc, hg, hw]
    refine ⟨?_, heq, ?_⟩
    · rw [heq]
      show a.next_free = a.next_free + l.size - l.size
      omega
    · rw [heq]
      exact hs

theorem dealloc_tail_restores_witness :
    ((Arena.mk 1 10 4).dealloc 1 ⟨4, 1⟩).next_free = (Arena.mk 1 10 4).next_free - 4 ∧
    (Arena.mk 1 10 4).dealloc 1 ⟨4, 1⟩ = Arena.mk 1 10 0 ∧
    ((Arena.mk 1 10 4).dealloc 1 ⟨4, 1⟩).bump_alloc ⟨4, 1⟩ =
      (Arena.mk 1 10 4, .ok ⟨1, 4⟩) :=
  dealloc_tail_restores ⟨1, 10, 0⟩ ⟨4, 1⟩ ⟨1, 10, 4⟩ ⟨1, 4⟩
    (by decide) (by decide) (by decide) (by decide)

/-! ### Claim C1 -/

/-- Invariants of a successful `allocAll` run: the buffer is unchanged, the
cursor advances by the total of the sizes and stays within the length, every
returned descriptor lies between the old and the new cursor, and the
descriptors are issued at strictly increasing, non-overlapping offsets. -/
theorem allocAll_spec (sizes : List Nat) (a a' : Arena) (ds : List MemDesc)
    (h1 : a.next_free ≤ a.length) (h2 : a.length < USIZE) (h3 : 0 < a.base)
    (h : allocAll a sizes = some (a', ds)) :
    a'.base = a.base ∧ a'.length = a.length ∧
    a'.next_free = a.next_free + sizes.sum ∧ a'.next_free ≤ a.length ∧
    (∀ d ∈ ds, a.base + a.next_free ≤ d.addr ∧
      d.addr + d.size ≤ a.base + a'.next_free) ∧
    ds.Pairwise (fun d1 d2 => d1.addr + d1.size ≤ d2.addr) := by
  induction sizes generalizing a a' ds with
  | nil =>
    simp only [allocAll, Option.some.injEq, Prod.mk.injEq] at h
    obtain ⟨rfl, rfl⟩ := h
    simpa using h1
  | cons s rest ih =>
    have hs := bump_alloc_spec a ⟨s, 1⟩ h1 h2 h3
    by_cases hoom : a.length - a.next_free < s
    · rw [if_pos hoom] at hs
      simp only [allocAll, hs] at h
      exact Option.noConfusion h
    · rw [if_neg hoom] at hs
      simp only [allocAll, hs] at h
      cases hrec : allocAll { a with next_free := a.next_free + s } rest with
      | none =>
        rw [hrec] at h
        exact Option.noConfusion h
      | some p =>
        obtain ⟨af, ds'⟩ := p
        rw [hrec] at h
        simp only [Option.some.injEq, Prod.mk.injEq] at h
        obtain ⟨rfl, rfl⟩ := h
        have hrest := ih { a with next_free := a.next_free + s } af ds'
          (by show a.next_free + s ≤ a.length; omega) h2 h3 hrec
        obtain ⟨hb, hl, hc, hle, hds, hpw⟩ := hrest
        have hc' : af.next_free = a.next_free + s + rest.sum := hc
        have hle' : af.next_free ≤ a.length := hle
        refine ⟨hb, hl, by rw [hc', List.sum_cons]; omega, hle', ?_, ?_⟩
        · intro d hd
          rcases List.mem_cons.mp hd with rfl | hd'
          · refine ⟨le_refl _, ?_⟩
            show a.base + a.next_free + s ≤ a.base + af.next_free
            omega
          · have hin := hds d hd'
            have hin1 : a.base + (a.next_free + s) ≤ d.addr := hin.1
            have hin2 : d.addr + d.size ≤ a.base + af.next_free := hin.2
            exact ⟨by omega, hin2⟩
        · refine List.Pairwise.cons ?_ hpw
          intro d hd'
          have hin1 : a.base + (a.next_free + s) ≤ d.addr := (hds d hd').1
          show a.base + a.next_free + s ≤ d.addr
          omega

/-- C1: for every arena of capacity `C` and every sequence of calls to
`bump_alloc` that all succeed, the returned byte ranges
`[offset, offset + size)` are pairwise non-overlapping and the sum of the
requested sizes never exceeds `C`. -/
theorem bump_alloc_ranges_disjoint (base C : Nat) (sizes : List Nat)
    (a' : Arena) (ds : List MemDesc) (hb : 0 < base) (hC : C < USIZE)
    (h : allocAll (Arena.new_in base C) sizes = some (a', ds)) :
    ds.Pairwise MemDesc.disjoint ∧ sizes.sum ≤ C := by
  have hs := allocAll_spec sizes (Arena.new_in base C) a' ds
    (Nat.zero_le _) hC hb h
  obtain ⟨-, -, hsum, hle, -, hpw⟩ := hs
  constructor
  · exact hpw.imp fun hd => Or.inl hd
  · have hsum' : a'.next_free = 0 + sizes.sum := hsum
    have hle' : a'.next_free ≤ C := hle
    omega

theorem bump_alloc_ranges_disjoint_witness :
    ([⟨1, 2⟩, ⟨3, 8⟩] : List MemDesc).Pairwise MemDesc.disjoint ∧
    [2, 8].sum ≤ 10 :=
  bump_alloc_ranges_disjoint 1 10 [2, 8] ⟨1, 10, 10⟩ [⟨1, 2⟩, ⟨3, 8⟩]
    (by decide) (by decide) (by decide)

/-! ### Claim C5 -/

/-- The buffer fields of the post-state of `bump_alloc` are unchanged and its
cursor stays within the length (no non-null hypothesis needed: the cursor has
already advanced when the `NonNull` check runs, and the bound holds either
way). -/
theorem bump_alloc_arena_bounds (a : Arena) (l : Layout)
    (h1 : a.next_free ≤ a.length) (h2 : a.length < USIZE) :
    (a.bump_alloc l).1.base = a.base ∧ (a.bump_alloc l).1.length = a.length ∧
    (a.bump_alloc l).1.next_free ≤ a.length := by
  have hw : wsub a.length a.next_free = a.length - a.next_free :=
    wsub_eq_of_le h1 h2
  by_cases hoom : a.length - a.next_free < l.size
  · simp [Arena.bump_alloc, hw, hoom, h1]
  · have hwa : wadd a.next_free l.size = a.next_free + l.size :=
      wadd_eq_of_lt (by omega)
    by_cases hz : a.base + a.next_free = 0
    · simp only [Arena.bump_alloc, hw]
      rw [if_neg hoom, if_pos hz]
      exact ⟨rfl, rfl, hwa.trans_le (by omega)⟩
    · simp only [Arena.bump_alloc, hw]
      rw [if_neg hoom, if_neg hz]
      exact ⟨rfl, rfl, hwa.trans_le (by omega)⟩

/-- `bump_alloc_zeroed` produces the same arena post-state as `bump_alloc`. -/
theorem bump_alloc_zeroed_arena (a : Arena) (m : Mem) (l : Layout) :
    (a.bump_alloc_zeroed m l).1.1 = (a.bump_alloc l).1 := by
  rcases h : a.bump_alloc l with ⟨a', r⟩
  cases r <;> simp [Arena.bump_alloc_zeroed, h]

/-- `alloc_val` produces the same arena post-state as `bump_alloc`. -/
theorem alloc_val_arena (a : Arena) (m : Mem) (l : Layout) (bytes : Nat → Nat) :
    (a.alloc_val m l bytes).1.1 = (a.bump_alloc l).1 := by
  rcases h : a.bump_alloc l with ⟨a', r⟩
  cases r <;> simp [Arena.alloc_val, h]

/-- `dealloc` leaves the buffer fields unchanged and never raises the
cursor. -/
theorem dealloc_arena_bounds (a : Arena) (data : Nat) (l : Layout)
    (h2 : a.length < USIZE) (h1 : a.next_free ≤ a.length) :
    (a.dealloc data l).base = a.base ∧ (a.dealloc data l).length = a.length ∧
    (a.dealloc data l).next_free ≤ a.next_free := by
  by_cases hc : a.next_free < l.size
  · simp [Arena.dealloc, hc]
  · have hw : wsub a.next_free l.size = a.next_free - l.size :=
      wsub_eq_of_le (by omega) (by omega)
    by_cases hp : a.base + (a.next_free - l.size) = data
    · simp only [Arena.dealloc, hw]
      rw [if_neg hc, if_pos hp]
      exact ⟨rfl, rfl, show a.next_free - l.size ≤ a.next_free by omega⟩
    · simp only [Arena.dealloc, hw]
      rw [if_neg hc, if_neg hp]
      exact ⟨rfl, rfl, le_refl _⟩

/-- C5: the cursor of every arena starts at 0 (`new_in`) and stays in
`[0, length]` across every operation: `bump_alloc`, `bump_alloc_zeroed`,
`alloc_val` and `dealloc` each leave the cursor between 0 (automatic for a
natural number) and the backing storage's length inclusive, and the
subtractions `length - cursor` (in `bump_alloc`) and `cursor - size` (in
`dealloc`, performed only when `size ≤ cursor`) never underflow: the wrapping
`usize` subtraction agrees with mathematical integer subtraction there. -/
theorem cursor_bounds (a : Arena) (m : Mem) (l : Layout) (data b n : Nat)
    (bytes : Nat → Nat)
    (h1 : a.next_free ≤ a.length) (h2 : a.length < USIZE) :
    (Arena.new_in b n).next_free = 0 ∧
    (a.bump_alloc l).1.next_free ≤ (a.bump_alloc l).1.length ∧
    (a.bump_alloc_zeroed m l).1.1.next_free ≤ (a.bump_alloc_zeroed m l).1.1.length ∧
    (a.alloc_val m l bytes).1.1.next_free ≤ (a.alloc_val m l bytes).1.1.length ∧
    (a.dealloc data l).next_free ≤ (a.dealloc data l).length ∧
    ((wsub a.length a.next_free : Int) = (a.length : Int) - (a.next_free : Int)) ∧
    (l.size ≤ a.next_free →
      (wsub a.next_free l.size : Int) = (a.next_free : Int) - (l.size : Int)) := by
  obtain ⟨hB, hL, hF⟩ := bump_alloc_arena_bounds a l h1 h2
  obtain ⟨hB', hL', hF'⟩ := dealloc_arena_bounds a data l h2 h1
  refine ⟨rfl, by rw [hL]; exact hF, ?_, ?_, by rw [hL']; omega, ?_, ?_⟩
  · rw [bump_alloc_zeroed_arena, hL]
    exact hF
  · rw [alloc_val_arena, hL]
    exact hF
  · rw [wsub_eq_of_le h1 h2]
    omega
  · intro hls
    rw [wsub_eq_of_le hls (by omega)]
    omega

theorem cursor_bounds_witness :
    (Arena.new_in 1 10).next_free = 0 ∧
    ((Arena.mk 1 10 3).bump_alloc ⟨4, 1⟩).1.next_free ≤
      ((Arena.mk 1 10 3).bump_alloc ⟨4, 1⟩).1.length ∧
    ((Arena.mk 1 10 3).bump_alloc_zeroed (fun _ => 7) ⟨4, 1⟩).1.1.next_free ≤
      ((Arena.mk 1 10 3).bump_alloc_zeroed (fun _ => 7) ⟨4, 1⟩).1.1.length ∧
    ((Arena.mk 1 10 3).alloc_val (fun _ => 7) ⟨4, 1⟩ (fun _ => 9)).1.1.next_free ≤
      ((Arena.mk 1 10 3).alloc_val (fun _ => 7) ⟨4, 1⟩ (fun _ => 9)).1.1.length ∧
    ((Arena.mk 1 10 3).dealloc 0 ⟨4, 1⟩).next_free ≤
      ((Arena.mk 1 10 3).dealloc 0 ⟨4, 1⟩).length ∧
    ((wsub 10 3 : Int) = (10 : Int) - (3 : Int)) ∧
    ((4 : Nat) ≤ 3 → (wsub 3 4 : Int) = (3 : Int) - (4 : Int)) :=
  cursor_bounds ⟨1, 10, 3⟩ (fun _ => 7) ⟨4, 1⟩ 0 1 10 (fun _ => 9)
    (by decide) (by decide)

/-! ### Claim C7 -/

/-- Every successful `bump_alloc` descriptor has the layout's size and sits at
the old cursor's address. -/
theorem bump_alloc_ok_shape (a : Arena) (l : Layout) (a' : Arena) (d : MemDesc)
    (h : a.bump_alloc l = (a', .ok d)) :
    d.size = l.size ∧ d.addr = a.base + a.next_free := by
  by_cases hoom : wsub a.length a.next_free < l.size
  · simp [Arena.bump_alloc, hoom] at h
  · by_cases hz : a.base + a.next_free = 0
    · simp [Arena.bump_alloc, hoom, hz] at h
    · have hval : a.bump_alloc l =
          ({ a with next_free := wadd a.next_free l.size },
            .ok ⟨a.base + a.next_free, l.size⟩) := by
        simp [Arena.bump_alloc, hoom, hz]
      rw [hval] at h
      injection h with hA hD
      injection hD with hD
      rw [← hD]
      exact ⟨rfl, rfl⟩

/-- C7: `bump_alloc_zeroed` returns exactly the result that the underlying
`bump_alloc` returns (same address and size on success, the same error on
failure), and on success every byte of the returned range
`[addr, addr + size)` is zero in the resulting memory. -/
theorem bump_alloc_zeroed_result (a : Arena) (m : Mem) (l : Layout) :
    (a.bump_alloc_zeroed m l).2 = (a.bump_alloc l).2 ∧
    (∀ d, (a.bump_alloc l).2 = .ok d →
      ∀ i, d.addr ≤ i → i < d.addr + d.size →
        (a.bump_alloc_zeroed m l).1.2 i = 0) := by
  rcases h : a.bump_alloc l with ⟨a', r⟩
  cases r with
  | error e => simp [Arena.bump_alloc_zeroed, h]
  | ok d =>
    have hsize : d.size = l.size := (bump_alloc_ok_shape a l a' d h).1
    simp only [Arena.bump_alloc_zeroed, h]
    refine ⟨by trivial, ?_⟩
    intro d2 hd2 i hle hlt
    have hdd : d2 = d := by
      injection hd2 with hd3
      exact hd3.symm
    rw [hdd] at hle hlt
    have hcond : d.addr ≤ i ∧ i < d.addr + l.size := by omega
    simp [write_bytes, hcond]

theorem bump_alloc_zeroed_result_witness :
    ((Arena.mk 1 10 3).bump_alloc_zeroed (fun _ => 7) ⟨4, 1⟩).2 =
      ((Arena.mk 1 10 3).bump_alloc ⟨4, 1⟩).2 ∧
    ((Arena.mk 1 10 3).bump_alloc_zeroed (fun _ => 7) ⟨4, 1⟩).1.2 5 = 0 :=
  have h := bump_alloc_zeroed_result ⟨1, 10, 3⟩ (fun _ => 7) ⟨4, 1⟩
  ⟨h.1, h.2 ⟨4, 4⟩ (by decide) 5 (by decide) (by decide)⟩

/-! ### The arena handle `Box<'a, T>` (src/boxed.rs)

`Box<'a, T>` is a newtype over `&'a mut T`.  A mutable reference is modelled
shallowly as its address together with the pointee it refers to, and a raw
pointer `*mut T` the same way (the source's `into_raw` hands the inner
reference over as a raw pointer unchanged, and `from_raw` re-wraps it). -/

/-- A `*mut T` / `&'a mut T`: an address plus the value stored there. -/
structure RawPtr (T : Type) where
  addr : Nat
  pointee : T
deriving DecidableEq, Repr

/-- `Box<'a, T>` (src/boxed.rs line 13): a newtype over the reference. -/
structure RBox (T : Type) where
  ref : RawPtr T
deriving DecidableEq, Repr

/-- `Box::into_raw` (src/boxed.rs lines 35-38): wrap in `ManuallyDrop`
(suppressing cleanup — the handle has no destructor anyway) and hand the
inner reference out as a raw pointer. -/
def RBox.into_raw {T : Type} (b : RBox T) : RawPtr T := b.ref

/-- `Box::from_raw` (src/boxed.rs lines 31-33): re-wrap a raw pointer. -/
def RBox.from_raw {T : Type} (p : RawPtr T) : RBox T := ⟨p⟩

/-- The address a handle points at. -/
def RBox.addr {T : Type} (b : RBox T) : Nat := b.ref.addr

/-- The value a handle owns (its dereference). -/
def RBox.val {T : Type} (b : RBox T) : T := b.ref.pointee

/-- A `Box<'a, [T; N]>`: address plus the `N` array elements. -/
structure BoxArr (T : Type) (N : Nat) where
  addr : Nat
  val : List T
  hval : val.length = N

/-- A `Box<'a, [T]>`: address plus the slice elements (the runtime length is
the length of `val`). -/
structure BoxSlice (T : Type) where
  addr : Nat
  val : List T
deriving DecidableEq, Repr

/-- `From<Box<[T; N]>> for Box<[T]>` (src/boxed.rs lines 158-164): build the
fat pointer `slice_from_raw_parts_mut(arr.as_mut_ptr(), N)`—same address,
same `N` elements. -/
def BoxArr.into_slice {T : Type} {N : Nat} (b : BoxArr T N) : BoxSlice T :=
  ⟨b.addr, b.val⟩

/-- `TryFrom<Box<[T]>> for Box<[T; N]>` (src/boxed.rs lines 167-178): if the
runtime length equals `N`, reinterpret the pointer as `*mut [T; N]`;
otherwise return the original slice handle as the error payload. -/
def BoxSlice.try_into_arr {T : Type} (N : Nat) (b : BoxSlice T) :
    Except (BoxSlice T) (BoxArr T N) :=
  if h : b.val.length = N then .ok ⟨b.addr, b.val, h⟩ else .error b

/-! ### Claim C8 -/

/-- C8: converting a fixed-length array handle to a sequence handle and back
via `TryFrom` with the same length `N` succeeds and preserves the address and
the contents (it returns the identical handle); for every sequence handle
whose runtime length differs from the requested `N`, `TryFrom` fails and the
error payload is the original sequence handle unchanged (same address, same
length, same contents). -/
theorem shape_conversion_roundtrip (T : Type) (N : Nat) (b : BoxArr T N)
    (bs : BoxSlice T) (hm : bs.val.length ≠ N) :
    BoxSlice.try_into_arr N (BoxArr.into_slice b) = .ok b ∧
    BoxSlice.try_into_arr N bs = .error bs := by
  obtain ⟨ad, v, hv⟩ := b
  constructor
  · subst hv
    simp [BoxSlice.try_into_arr, BoxArr.into_slice]
  · simp [BoxSlice.try_into_arr, hm]

theorem shape_conversion_roundtrip_witness :
    BoxSlice.try_into_arr 2 (BoxArr.into_slice ⟨5, [1, 2], rfl⟩) =
      .ok (⟨5, [1, 2], rfl⟩ : BoxArr Nat 2) ∧
    BoxSlice.try_into_arr 2 (⟨9, [1, 2, 3]⟩ : BoxSlice Nat) =
      .error ⟨9, [1, 2, 3]⟩ :=
  shape_conversion_roundtrip Nat 2 ⟨5, [1, 2], rfl⟩ ⟨9, [1, 2, 3]⟩ (by decide)

/-! ### Claim C9 -/

/-- C9: for every handle `b`, `Box::from_raw(Box::into_raw(b))` yields a
handle that refers to the same address and the same contained value as
`b`. -/
theorem from_raw_into_raw_roundtrip (T : Type) (b : RBox T) :
    (RBox.from_raw (RBox.into_raw b)).addr = b.addr ∧
    (RBox.from_raw (RBox.into_raw b)).val = b.val :=
  ⟨rfl, rfl⟩

end WaitFreeArena
